import Mathlib

/-!
Verification development for the Obsidian weekly-report pipeline
(`daily_summary.py`, `scanner.py`, `weekly_report.py`, `run_pipeline.py`).

The Python sources are shallowly embedded as executable Lean definitions:
pure functions become Lean functions, the filesystem is passed explicitly
(a vault is a list of files with path components, a modification time and
raw byte content), and fallible operations return `Option`/`Except`.
Timestamps are modelled as integers (the sources use POSIX epoch floats;
no claim depends on sub-second precision).  String operations work on
`List Char`, matching Python's per-code-point string semantics for the
ASCII and CJK data the sources handle.
-/

/-- Record written to `weekly_log.jsonl` by `scan_and_summarize`
(`daily_summary.py`, lines 86-93): one JSON object per changed file. -/
structure LogEntry where
  timestamp : Int
  date_str : String
  file_path : String
  rel_path : String
  action : String
  summary : String
deriving DecidableEq

/-- Delimiter class of the tokenizer regex `[\s\-_,\.，。：]+`
(`weekly_report.py`, line 118): whitespace, hyphen, underscore, comma,
period, and the full-width CJK comma/period/colon.  Python's `\s` on ASCII
also covers vertical tab and form feed. -/
def isDelim (c : Char) : Bool :=
  c.isWhitespace || c = '\x0b' || c = '\x0c' || c = '-' || c = '_' ||
    c = ',' || c = '.' || c = '，' || c = '。' || c = '：'

mutual

/-- Accumulating half of `re.split` with a delimiter class followed by `+`:
characters are collected into the current token until a delimiter is hit. -/
def splitDelimAux : List Char → List Char → List (List Char)
  | [], cur => [cur.reverse]
  | c :: cs, cur =>
    if isDelim c then cur.reverse :: skipDelims cs
    else splitDelimAux cs (c :: cur)

/-- Run-skipping half of `re.split`: consecutive delimiters produce a single
split (the `+` in the pattern), and a trailing run yields one empty token. -/
def skipDelims : List Char → List (List Char)
  | [] => [[]]
  | c :: cs => if isDelim c then skipDelims cs else splitDelimAux cs [c]

end

/-- Embedding of `re.split(r'[\s\-_,\.，。：]+', clean_name)`
(`weekly_report.py`, line 118), including the empty tokens that `re.split`
emits at the boundaries of the string. -/
def splitDelim (l : List Char) : List (List Char) :=
  splitDelimAux l []

/-- Embedding of the extension strip `os.path.splitext(name)[0]`
(`weekly_report.py`, line 117) applied to a bare basename: the name is cut
at its last dot provided some character before that dot is not itself a
dot (so a leading-dot name like `.md` keeps its "extension"). -/
def splitextName (l : List Char) : List Char :=
  match (l.reverse.dropWhile (fun c => c ≠ '.')) with
  | [] => l
  | _ :: baseRev =>
    if baseRev.reverse.any (fun c => c ≠ '.') then baseRev.reverse else l

/-- ASCII case fold, the relevant fragment of Python's `str.lower()` for the
all-ASCII stop-word comparisons in the source. -/
def lowerChars (l : List Char) : List Char :=
  l.map Char.toLower

/-- Embedding of `str.strip()` for the token cleanup (`weekly_report.py`,
line 122); tokens never contain whitespace (whitespace is a delimiter), so
this is an identity there, kept for fidelity. -/
def trimChars (l : List Char) : List Char :=
  ((l.dropWhile Char.isWhitespace).reverse.dropWhile Char.isWhitespace).reverse

/-- Stop-word set `ignore_words` (`weekly_report.py`, line 109), in source
order; the source literal lists `md` twice, which is harmless in a set. -/
def ignoreWords : List String :=
  ["md", "the", "in", "of", "a", "to", "for", "on", "and", "with", "by",
   "is", "at", "md", "txt", "file", "new", "update", "untitled",
   "0", "1", "2", "3", "review", "planning", "dev"]

/-- Per-filename token pipeline of `extract_topics_and_cluster`
(`weekly_report.py`, lines 117-127): strip the extension, split on the
delimiter class, strip each token, and keep tokens of length above one
whose lower-cased form is not a stop word.  The kept token retains its
original casing. -/
def validTokens (name : String) : List String :=
  (splitDelim (splitextName name.data)).filterMap (fun t =>
    if 1 < (trimChars t).length ∧
        String.mk (lowerChars (trimChars t)) ∉ ignoreWords then
      some (String.mk (trimChars t))
    else none)

/-- Embedding of `os.path.basename` for POSIX paths: the part after the
last slash. -/
def basenameChars (l : List Char) : List Char :=
  (l.reverse.takeWhile (fun c => c ≠ '/')).reverse

/-- Basenames of the batch, `[os.path.basename(log['rel_path']) for log in logs]`
(`weekly_report.py`, line 105); duplicates are kept, as in the source. -/
def allFilenames (logs : List LogEntry) : List String :=
  logs.map (fun e => String.mk (basenameChars e.rel_path.data))

/-- Flat token stream `words` (`weekly_report.py`, line 125): every kept
token of every filename, with repetitions. -/
def wordsOf (logs : List LogEntry) : List String :=
  (allFilenames logs).flatMap validTokens

/-- First-occurrence deduplication, the key order of a Python `dict` /
`Counter` built by insertion (`file_tokens` and `Counter(words)` both
iterate keys in first-insertion order). -/
def dedupFirst : List String → List String → List String
  | [], _ => []
  | x :: xs, seen =>
    if x ∈ seen then dedupFirst xs seen else x :: dedupFirst xs (x :: seen)

/-- Key list of the `file_tokens` dict (`weekly_report.py`, line 127):
filenames in first-insertion order, later duplicates collapsing onto the
first occurrence (re-assignment stores the same token list again). -/
def dictNames (logs : List LogEntry) : List String :=
  dedupFirst (allFilenames logs) []

/-- Multiplicity of a token in the word stream, as counted by
`Counter(words)` (`weekly_report.py`, line 133). -/
def countOcc (ws : List String) (t : String) : Nat :=
  (ws.filter (fun u => u = t)).length

/-- Item list of `Counter(words)`: each distinct token, in first-insertion
order, paired with its count. -/
def counterItems (ws : List String) : List (String × Nat) :=
  (dedupFirst ws []).map (fun t => (t, countOcc ws t))

/-- Stable descending insertion by count: the element is placed before the
first entry whose count it reaches, hence after every earlier entry of
equal count. -/
def insertDesc (x : String × Nat) : List (String × Nat) → List (String × Nat)
  | [] => [x]
  | y :: ys => if y.2 ≤ x.2 then x :: y :: ys else y :: insertDesc x ys

/-- Stable sort by descending count, the order contract of
`Counter.most_common` (`heapq.nlargest` sorts by count descending and
preserves first-seen order among equal counts). -/
def sortDesc : List (String × Nat) → List (String × Nat)
  | [] => []
  | x :: xs => insertDesc x (sortDesc xs)

/-- Embedding of `Counter(words).most_common(n)` (`weekly_report.py`,
line 134): distinct tokens with counts, sorted by descending count with
ties in first-seen order, truncated to `n`. -/
def mostCommon (ws : List String) (n : Nat) : List (String × Nat) :=
  (sortDesc (counterItems ws)).take n

/-- Greedy cluster assignment loop of `extract_topics_and_cluster`
(`weekly_report.py`, lines 136-148): for each selected keyword, in rank
order, collect the not-yet-claimed dict files whose token list contains
the keyword; a keyword with no remaining files emits no cluster. -/
def buildClusters : List (String × Nat) → List String → List String →
    List (String × Nat × List String)
  | [], _, _ => []
  | (kw, _) :: rest, names, processed =>
    if (names.filter (fun n =>
        decide (kw ∈ validTokens n ∧ n ∉ processed))).isEmpty then
      buildClusters rest names processed
    else
      (kw,
       (names.filter (fun n => decide (kw ∈ validTokens n ∧ n ∉ processed))).length,
       names.filter (fun n => decide (kw ∈ validTokens n ∧ n ∉ processed)))
        :: buildClusters rest names
            (processed ++ names.filter (fun n =>
              decide (kw ∈ validTokens n ∧ n ∉ processed)))

/-- Embedding of `extract_topics_and_cluster` (`weekly_report.py`,
lines 100-150): tokenize all basenames, count tokens globally, select the
top five keywords, and greedily assign each file to the first selected
keyword contained in its token list. -/
def extract_topics_and_cluster (logs : List LogEntry) :
    List (String × Nat × List String) :=
  if (wordsOf logs).isEmpty then []
  else buildClusters (mostCommon (wordsOf logs) 5) (dictNames logs) []

/-- Selected keyword/count pairs of one aggregation run, `most_common(5)`. -/
def selectedPairs (logs : List LogEntry) : List (String × Nat) :=
  mostCommon (wordsOf logs) 5

/-- Selected keywords of one aggregation run, in rank order. -/
def selectedKeywords (logs : List LogEntry) : List String :=
  (selectedPairs logs).map Prod.fst

/-- First keyword of the ranked list contained in the token set of a file:
the keyword that claims the file under the greedy first-match-wins walk. -/
def firstKw (sel : List String) (n : String) : Option String :=
  sel.find? (fun k => decide (k ∈ validTokens n))

/-- File of the vault as seen by the scanners: the chain of directory names
below the vault root, the basename, the stat modification and creation
times, and the raw byte content (naturals below 256). -/
structure VFile where
  dirs : List String
  name : String
  mtime : Int
  ctime : Int
  bytes : List Nat
deriving DecidableEq

/-- Continuation-byte test of the UTF-8 decoder. -/
def utf8Cont (b : Nat) : Bool :=
  0x80 ≤ b && b < 0xC0

/-- Strict UTF-8 decoder, the first attempt of the encoding loop
(`daily_summary.py`, line 70).  Overlong forms, surrogates, and code
points above `0x10FFFF` are rejected, as CPython's strict codec does. -/
def utf8Decode : List Nat → Option (List Char)
  | [] => some []
  | b :: bs =>
    if b < 0x80 then
      (utf8Decode bs).map (fun r => Char.ofNat b :: r)
    else if b < 0xC2 then none
    else if b < 0xE0 then
      match bs with
      | b1 :: rest =>
        if utf8Cont b1 then
          (utf8Decode rest).map (fun r =>
            Char.ofNat ((b - 0xC0) * 0x40 + (b1 - 0x80)) :: r)
        else none
      | [] => none
    else if b < 0xF0 then
      match bs with
      | b1 :: b2 :: rest =>
        if utf8Cont b1 && utf8Cont b2 && !(b == 0xE0 && b1 < 0xA0) &&
            !(b == 0xED && 0xA0 ≤ b1) then
          (utf8Decode rest).map (fun r =>
            Char.ofNat ((b - 0xE0) * 0x1000 + (b1 - 0x80) * 0x40 + (b2 - 0x80)) :: r)
        else none
      | _ => none
    else if b < 0xF5 then
      match bs with
      | b1 :: b2 :: b3 :: rest =>
        if utf8Cont b1 && utf8Cont b2 && utf8Cont b3 &&
            !(b == 0xF0 && b1 < 0x90) && !(b == 0xF4 && 0x90 ≤ b1) then
          (utf8Decode rest).map (fun r =>
            Char.ofNat ((b - 0xF0) * 0x40000 + (b1 - 0x80) * 0x1000 +
              (b2 - 0x80) * 0x40 + (b3 - 0x80)) :: r)
        else none
      | _ => none
    else none

/-- Pairing of bytes into 16-bit units for UTF-16; an odd trailing byte is
a decode error ("truncated data"). -/
def utf16Units (le : Bool) : List Nat → Option (List Nat)
  | [] => some []
  | [_] => none
  | a :: b :: rest =>
    (utf16Units le rest).map (fun us =>
      (if le then b * 256 + a else a * 256 + b) :: us)

/-- Surrogate-pair combination for UTF-16 units; a lone surrogate is a
decode error. -/
def utf16Combine : List Nat → Option (List Char)
  | [] => some []
  | u :: us =>
    if u < 0xD800 || 0xE000 ≤ u then
      (utf16Combine us).map (fun r => Char.ofNat u :: r)
    else if u < 0xDC00 then
      match us with
      | v :: rest =>
        if 0xDC00 ≤ v && v < 0xE000 then
          (utf16Combine rest).map (fun r =>
            Char.ofNat (0x10000 + (u - 0xD800) * 0x400 + (v - 0xDC00)) :: r)
        else none
      | [] => none
    else none

/-- UTF-16 decoder, the second attempt of the encoding loop: a leading
byte-order mark selects and consumes the byte order; without one,
little-endian is assumed (CPython's native order on this platform). -/
def utf16Decode : List Nat → Option (List Char)
  | 0xFF :: 0xFE :: rest => (utf16Units true rest).bind utf16Combine
  | 0xFE :: 0xFF :: rest => (utf16Units false rest).bind utf16Combine
  | bs => (utf16Units true bs).bind utf16Combine

/-- Latin-1 decoder, the last attempt of the encoding loop: every byte
decodes to the code point of the same value, so it never fails. -/
def latin1Decode (bs : List Nat) : List Char :=
  bs.map Char.ofNat

/-- Encoding loop of `scan_and_summarize` (`daily_summary.py`,
lines 69-76): try `utf-8`, `utf-16`, `gbk`, `latin-1` in order and keep
the first successful decode.  The GBK codec is a large table-driven
decoder and no claim depends on its output, so it is a parameter; since
`latin-1` accepts every byte sequence, the chain always yields a string. -/
def decodeChain (gbk : List Nat → Option (List Char)) (bs : List Nat) :
    List Char :=
  match utf8Decode bs with
  | some cs => cs
  | none =>
    match utf16Decode bs with
    | some cs => cs
    | none =>
      match gbk bs with
      | some cs => cs
      | none => latin1Decode bs

/-- Universal-newline translation of text-mode reads: `\r\n` and lone `\r`
become `\n`.  It never changes whether the content is empty. -/
def translateNewlines : List Char → List Char
  | [] => []
  | '\x0d' :: '\x0a' :: rest => '\x0a' :: translateNewlines rest
  | '\x0d' :: rest => '\x0a' :: translateNewlines rest
  | c :: rest => c :: translateNewlines rest

/-- Test for the configured note extension, `file.endswith('.md')`
(`daily_summary.py`, line 57; `scanner.py`, line 26). -/
def endsWithMd (l : List Char) : Bool :=
  match l.reverse with
  | 'd' :: 'm' :: '.' :: _ => true
  | _ => false

/-- Test for a hidden directory name, `d.startswith('.')`
(`daily_summary.py`, line 52). -/
def startsWithDot (s : String) : Bool :=
  match s.data with
  | '.' :: _ => true
  | _ => false

/-- Relative path of a vault file, `os.path.relpath(file_path, vault_path)`. -/
def mkRelPath (f : VFile) : String :=
  String.intercalate "/" (f.dirs ++ [f.name])

/-- Absolute path of a vault file, `os.path.join(root, file)` where `root`
is the vault path extended by the directory chain. -/
def mkFilePath (vaultPath : String) (f : VFile) : String :=
  String.intercalate "/" (vaultPath :: (f.dirs ++ [f.name]))

/-- Splitting on one character, the `\n` case of `str.splitlines` after
newline translation; `splitlines` drops a trailing empty segment, but the
caller filters empty stripped lines anyway, so the two agree there. -/
def splitOnNl : List Char → List (List Char)
  | [] => [[]]
  | c :: cs =>
    if c = '\x0a' then [] :: splitOnNl cs
    else
      match splitOnNl cs with
      | t :: ts => (c :: t) :: ts
      | [] => [[c]]

/-- Embedding of `mock_ai_summarize` (`daily_summary.py`, lines 20-34):
a heuristic summary built from the non-blank stripped lines of the
content. -/
def mock_ai_summarize (content : List Char) (filename : String) : String :=
  let lines := ((splitOnNl content).map trimChars).filter (fun l => l ≠ [])
  if lines.isEmpty then "Empty note."
  else
    "Note \x27" ++ filename ++ "\x27 update. " ++
      "Main topic seems to be about \x27" ++ String.mk ((lines.headD []).take 50) ++
      "...\x27. " ++ "Contains " ++ toString lines.length ++ " lines of text."

/-- Per-file body of the walk in `scan_and_summarize` (`daily_summary.py`,
lines 54-94): skip non-`.md` files; for an eligible file modified after the
baseline, decode the content through the encoding chain, skip it with a
warning when the decoded content is empty, and otherwise build the log
entry with the shared scan timestamp.  `fmtTime` abstracts the
local-timezone `strftime` rendering of the scan time. -/
def processFile (gbk : List Nat → Option (List Char)) (fmtTime : Int → String)
    (vaultPath : String) (lastScan currentTime : Int) (f : VFile) :
    Option LogEntry :=
  if !(endsWithMd f.name.data) then none
  else if f.mtime > lastScan then
    if (translateNewlines (decodeChain gbk f.bytes)).isEmpty then none
    else
      some { timestamp := currentTime,
             date_str := fmtTime currentTime,
             file_path := mkFilePath vaultPath f,
             rel_path := mkRelPath f,
             action := "update",
             summary := mock_ai_summarize
               (translateNewlines (decodeChain gbk f.bytes)) f.name }
  else none

/-- Baseline timestamp of a scan (`daily_summary.py`, lines 38-43): the
stored cursor, or `current_time - days_back * 86400` when a lookback
override is supplied. -/
def effectiveBaseline (state currentTime : Int) (daysBack : Option Int) : Int :=
  match daysBack with
  | some d => currentTime - d * 86400
  | none => state

/-- Result of one `scan_and_summarize` run: the entries appended to the
change log and the cursor value passed to `save_state` at the end. -/
structure ScanOutcome where
  newLogs : List LogEntry
  savedState : Int
deriving DecidableEq

/-- Embedding of `scan_and_summarize` (`daily_summary.py`, lines 36-109).
The vault list enumerates the files in traversal order; `os.walk` prunes
every directory whose name starts with a dot (line 52), so files having
any hidden ancestor directory are never visited.  At the end the scan
start time `current_time` is saved as the new cursor (line 109). -/
def scan_and_summarize (gbk : List Nat → Option (List Char))
    (fmtTime : Int → String) (vaultPath : String) (vault : List VFile)
    (state currentTime : Int) (daysBack : Option Int) : ScanOutcome :=
  { newLogs :=
      (vault.filter (fun f => !(f.dirs.any startsWithDot))).filterMap
        (processFile gbk fmtTime vaultPath
          (effectiveBaseline state currentTime daysBack) currentTime),
    savedState := currentTime }

/-- Embedding of `load_state` (`daily_summary.py`, lines 10-14).  The state
file is modelled by whether it exists and, if so, whether its contents
read and parse: `none` means no file (the default cursor is returned), and
an existing file carries either the parsed `last_scan` value or the
exception that `open`/`json.load` raises — which the function does not
catch. -/
def load_state (stateFile : Option (Except Unit Int)) : Except Unit Int :=
  match stateFile with
  | none => Except.ok 0
  | some r => r

/-- Serialized form of the cursor, `json.dump({"last_scan": t}, f)`
(`daily_summary.py`, line 18). -/
def save_state_json (t : Int) : String :=
  "\x7b\"last_scan\": " ++ toString t ++ "\x7d"

/-- Observable state-file content after an interrupted or completed
`save_state` (`daily_summary.py`, lines 16-18).  `open(STATE_FILE, 'w')`
truncates the file as soon as it succeeds, so the prior content survives
only if the open itself never happened; after the open the file holds
whatever prefix of the new JSON was written before the failure. -/
def save_state_after (prior : Option String) (t : Int) (opened : Bool)
    (charsWritten : Nat) : Option String :=
  if opened then some (String.mk ((save_state_json t).data.take charsWritten))
  else prior

/-- Entry of the `modified_files` list built by `scan_vault`
(`scanner.py`, lines 30-36). -/
structure ModFile where
  path : String
  rel_path : String
  mtime : Int
  ctime : Int
deriving DecidableEq

/-- Pruning test of `scan_vault` (`scanner.py`, lines 14-17): only the
directories named exactly `.git` or `.obsidian` are removed from the walk;
other hidden directories are traversed. -/
def prunedGitObsidian (f : VFile) : Bool :=
  f.dirs.any (fun d => d = ".git" || d = ".obsidian")

/-- Stable descending insertion by modification time. -/
def insertMt (x : ModFile) : List ModFile → List ModFile
  | [] => [x]
  | y :: ys => if y.mtime ≤ x.mtime then x :: y :: ys else y :: insertMt x ys

/-- Stable sort by descending modification time,
`modified_files.sort(key=lambda x: x['mtime'], reverse=True)`
(`scanner.py`, line 41). -/
def sortMt : List ModFile → List ModFile
  | [] => []
  | x :: xs => insertMt x (sortMt xs)

/-- Embedding of `scan_vault` (`scanner.py`, lines 6-48): walk the vault
pruning only `.git` and `.obsidian`, keep `.md` files whose modification
time exceeds `now - days * 86400`, and sort the result newest-first. -/
def scan_vault (vaultPath : String) (vault : List VFile) (now days : Int) :
    List ModFile :=
  sortMt ((vault.filter (fun f => !(prunedGitObsidian f))).filterMap (fun f =>
    if endsWithMd f.name.data && decide (f.mtime > now - days * 86400) then
      some { path := mkFilePath vaultPath f, rel_path := mkRelPath f,
             mtime := f.mtime, ctime := f.ctime }
    else none))

/-- Return value of the Python function `publish_to_linear`: the source
returns `None` on every path (missing key, team-fetch error, no teams,
create error, create failure, and success alike), so the type has a single
value. -/
inductive PyNone where
  | none
deriving DecidableEq

/-- Observable effect of one `publish_to_linear` call, distinguishing the
print/return paths of `weekly_report.py`, lines 16-97. -/
inductive PublishTrace where
  | skippedNoKey
  | teamsError
  | noTeams
  | createError
  | createFailed
  | published (url : String)
deriving DecidableEq

/-- Responses of the Linear API as seen through `httpx.post`: the teams
query yields an exception or a node list of `(id, name)` pairs, and the
issue-create mutation yields an exception, an unsuccessful result, or the
created issue URL. -/
structure LinearNet where
  teamsResp : Except Unit (List (String × String))
  createResp : Except Unit (Option String)

/-- Embedding of `publish_to_linear` (`weekly_report.py`, lines 16-97):
without `LINEAR_API_KEY` the publication is skipped with a printed error;
otherwise the first team is fetched and the issue created, with every
failure caught and printed.  All paths return Python `None`. -/
def publish_to_linear (apiKey : Option String) (net : LinearNet) :
    PublishTrace × PyNone :=
  match apiKey with
  | Option.none => (PublishTrace.skippedNoKey, PyNone.none)
  | Option.some _ =>
    match net.teamsResp with
    | Except.error _ => (PublishTrace.teamsError, PyNone.none)
    | Except.ok [] => (PublishTrace.noTeams, PyNone.none)
    | Except.ok (_ :: _) =>
      match net.createResp with
      | Except.error _ => (PublishTrace.createError, PyNone.none)
      | Except.ok Option.none => (PublishTrace.createFailed, PyNone.none)
      | Except.ok (Option.some url) => (PublishTrace.published url, PyNone.none)

/-- Folder bucket of a log entry (`weekly_report.py`, line 195): the first
component of `os.path.dirname(rel_path)`, with entries directly in the
root mapped to `Uncategorized`. -/
def folderOf (relPath : String) : String :=
  let dir := (relPath.data.reverse.dropWhile (fun c => c ≠ '/')).reverse
  let first := String.mk (dir.takeWhile (fun c => c ≠ '/'))
  if first = "" ∨ first = "." then "Uncategorized" else first

/-- Ascending insertion by the code-point order on strings. -/
def insertAsc (x : String) : List String → List String
  | [] => [x]
  | y :: ys => if x < y then x :: y :: ys else y :: insertAsc x ys

/-- Ascending sort by the code-point order on strings, Python's
`sorted` on the deduplicated filename set (`weekly_report.py`, line 205). -/
def sortAsc : List String → List String
  | [] => []
  | x :: xs => insertAsc x (sortAsc xs)

/-- Minimum of a nonempty list of timestamps, `min(log_dates)`. -/
def minList (d : Int) (ds : List Int) : Int :=
  ds.foldl min d

/-- Maximum of a nonempty list of timestamps, `max(log_dates)`. -/
def maxList (d : Int) (ds : List Int) : Int :=
  ds.foldl max d

/-- Clock and formatting environment of `generate_report`: the current date
string, the current ISO year-week string, the `strptime` parse of a log
`date_str` (to an epoch value usable for min/max), and the `%m%d`
rendering used in the title.  These abstract `datetime`, which depends on
the wall clock and local timezone. -/
structure TimeEnv where
  currentDate : String
  weekNum : String
  parseDt : String → Option Int
  fmtMMDD : Int → String

/-- Outcome of one `generate_report` invocation (`weekly_report.py`,
lines 152-256): the function returns early with only a printed message
when the log file is missing or holds no records — writing nothing — and
otherwise writes the rendered report and, when requested, runs the publish
step.  `generated` carries the output path, the rendered content, and the
publish trace (`none` when publishing was not requested). -/
inductive ReportOutcome where
  | noLogFile
  | emptyLog
  | generated (outputFile : String) (content : String)
      (publish : Option PublishTrace)
deriving DecidableEq

/-- Focus sentence for one cluster (`weekly_report.py`, lines 177-188):
up to two example filenames, an "and N more" qualifier past two, and the
keyword with its file count. -/
def focusSentence (c : String × Nat × List String) : String :=
  let topFiles := String.intercalate ", " ((c.2.2.take 2).map (fun f => "*" ++ f ++ "*"))
  let topFiles := if 2 < c.2.2.length then
      topFiles ++ " 等 " ++ toString c.2.2.length ++ " 个文件"
    else topFiles
  "**" ++ c.1 ++ "**: 本周重点关注领域，产出 " ++ toString c.2.1 ++
    " 篇文档。主要涉及 " ++ topFiles ++ "。"

/-- Work-focus section (`weekly_report.py`, lines 175-190): one sentence
per cluster, or the generic placeholder when no cluster was found. -/
def focusSummary (clusters : List (String × Nat × List String)) : List String :=
  if clusters.isEmpty then ["**General**: 零散更新，未发现明显聚集的主题。"]
  else clusters.map focusSentence

/-- Outputs section (`weekly_report.py`, lines 192-207): folder buckets in
first-appearance order, each listing the deduplicated, sorted basenames of
its entries. -/
def outputsSection (logs : List LogEntry) : String :=
  String.join ((dedupFirst (logs.map (fun l => folderOf l.rel_path)) []).map
    (fun folder =>
      "\n### " ++ folder ++ "\n" ++
        String.join ((sortAsc (dedupFirst
            ((logs.filter (fun l => folderOf l.rel_path = folder)).map
              (fun l => String.mk (basenameChars l.rel_path.data))) [])).map
          (fun fn => "- " ++ fn ++ "\n"))))

/-- Report title (`weekly_report.py`, lines 212-227): the min-max range of
the parseable event timestamps, falling back to the ISO year-week when
none parses. -/
def reportTitle (env : TimeEnv) (logs : List LogEntry) : String :=
  match logs.filterMap (fun l => env.parseDt l.date_str) with
  | [] => "Obsidian Weekly Review: " ++ env.weekNum
  | d :: ds =>
    "Obsidian Weekly Review: " ++ env.fmtMMDD (minList d ds) ++ "-" ++
      env.fmtMMDD (maxList d ds)

/-- Rendered report body (`weekly_report.py`, lines 229-245), with
`os.linesep` taken as the newline of the POSIX platform the pipeline runs
on. -/
def reportContent (env : TimeEnv) (logs : List LogEntry)
    (clusters : List (String × Nat × List String)) : String :=
  "*Generated by AIC Agent on " ++ env.currentDate ++ "*\n\n" ++
    "## 本周工作重心\n本周共产生/修改了 **" ++ toString logs.length ++
    "** 个文件。通过 AI 分析，主要知识增量集中在以下领域：\n\n" ++
    String.intercalate "\n" ((focusSummary clusters).map (fun s => "- " ++ s)) ++
    "\n\n> *Generated by Mock LLM: (Identifying high-frequency topics from filenames and summarizing)*\n\n" ++
    "## 新增/修改内容清单\n" ++ outputsSection logs ++
    "\n\n## 知识增量总结\n*注：此部分未来将由 AI 阅读上述文件后自动生成，概括核心知识点。*\n- **" ++
    (match clusters with
     | [] => "General"
     | c :: _ => c.1) ++
    "**: 本周在此领域投入了最大精力。\n- **效率提升**: 通过自动化脚本快速梳理了本周的知识产出。\n"

/-- Embedding of `generate_report` (`weekly_report.py`, lines 152-259).
The change log is `none` when `weekly_log.jsonl` does not exist; otherwise
it is the line list, where a `none` line stands for a blank line that the
`if line.strip()` filter drops and a `some` line for a record parsed by
`json.loads`.  An absent or record-less log returns early without writing;
otherwise the report is rendered, written to the week-stamped output file,
and optionally published. -/
def generate_report (logFile : Option (List (Option LogEntry)))
    (outputPath : String) (publishLinear : Bool) (apiKey : Option String)
    (net : LinearNet) (env : TimeEnv) : ReportOutcome :=
  match logFile with
  | Option.none => ReportOutcome.noLogFile
  | Option.some rawLines =>
    if (rawLines.filterMap (fun x => x)).isEmpty then ReportOutcome.emptyLog
    else
      ReportOutcome.generated
        (outputPath ++ "/Weekly_Report_" ++ env.weekNum ++ ".md")
        (reportContent env (rawLines.filterMap (fun x => x))
          (extract_topics_and_cluster (rawLines.filterMap (fun x => x))))
        (if publishLinear then Option.some (publish_to_linear apiKey net).1
         else Option.none)

/-- Exit status of the `weekly_report.py` process: `generate_report`
returns normally on every modelled path (missing log, empty log, and
generated report alike) and the script never calls `sys.exit`, so the
interpreter exits with status zero. -/
def weeklyReportExitCode (_o : ReportOutcome) : Int := 0

/-- Outcome of `run_pipeline.main` (`run_pipeline.py`, lines 6-39) as a
function of the two child exit codes: a non-zero scan status aborts with
that status, then a non-zero report status aborts with that status, and
otherwise the pipeline prints its completion banner. -/
inductive PipelineResult where
  | failedScan (code : Int)
  | failedReport (code : Int)
  | completed
deriving DecidableEq

/-- Control flow of `run_pipeline.main` over the child exit codes. -/
def pipelineRun (scanExit reportExit : Int) : PipelineResult :=
  if scanExit ≠ 0 then PipelineResult.failedScan scanExit
  else if reportExit ≠ 0 then PipelineResult.failedReport reportExit
  else PipelineResult.completed

/-- Log entry with a given relative path and neutral remaining fields, used
to build concrete aggregation batches. -/
def mkEntry (p : String) : LogEntry :=
  ⟨0, "", "", p, "update", ""⟩

/-- Batch of the clustering example: the four basenames given in the
specification's clustering test. -/
def logsC5 : List LogEntry :=
  [mkEntry "Project-Alpha-Planning.md", mkEntry "Project-Alpha-Notes.md",
   mkEntry "Beta-Review.md", mkEntry "Untitled.md"]

/-- Batch with two filenames whose leading tokens differ only in letter
case, probing the case handling of the frequency count. -/
def logsC9 : List LogEntry :=
  [mkEntry "Alpha-Beta.md", mkEntry "alpha-Gamma.md"]

/-- GBK decoder stand-in that accepts nothing; the concrete runs below
never reach the GBK attempt. -/
def gbkNone : List Nat → Option (List Char) :=
  fun _ => none

/-- Timestamp formatter stand-in for concrete runs. -/
def fmtNone : Int → String :=
  fun _ => ""

/-- Vault holding one recent note inside the hidden directory `.trash`,
which is not one of the two names `scan_vault` prunes. -/
def vaultC4 : List VFile :=
  [⟨[".trash"], "note.md", 100, 100, [104, 105]⟩]

/-- Note file whose bytes are exactly a UTF-16 little-endian byte-order
mark: non-empty content that decodes to the empty string. -/
def fBom : VFile :=
  ⟨[], "bom.md", 10, 10, [0xFF, 0xFE]⟩

/-- Ordinary non-empty note file used by witnesses. -/
def fPlain : VFile :=
  ⟨[], "note.md", 10, 10, [104, 105]⟩

/-- Linear API responses with no configured team and an unsuccessful
create result; never reached in the no-credential runs below. -/
def netEmpty : LinearNet :=
  ⟨Except.ok [], Except.ok Option.none⟩

/-- Linear API responses of a fully successful publish: one team and a
created issue URL. -/
def netOK : LinearNet :=
  ⟨Except.ok [("team-1", "Team One")], Except.ok (Option.some "https://linear.app/issue/1")⟩

/-- Concrete clock environment for the report runs. -/
def envEx : TimeEnv :=
  ⟨"2025-01-01", "2025-W01", fun _ => Option.none, fun _ => ""⟩

/-- Declarative description of the files a keyword ends up with: the dict
files, in order, that are unprocessed and whose first matching selected
keyword is this one.  Proved below to coincide with the greedy loop. -/
def clusterFilesSpec (sel names processed : List String) (k : String) :
    List String :=
  names.filter (fun n => decide (n ∉ processed ∧ firstKw sel n = some k))

/-- Declarative description of the whole cluster list: one cluster per
selected keyword that claims at least one file, in rank order. -/
def clustersSpec (sel names processed : List String) :
    List (String × Nat × List String) :=
  sel.filterMap (fun k =>
    if (clusterFilesSpec sel names processed k).isEmpty then none
    else some (k, (clusterFilesSpec sel names processed k).length,
      clusterFilesSpec sel names processed k))

theorem filterMap_congr_mem {α β : Type} {f g : α → Option β} :
    ∀ {l : List α}, (∀ x ∈ l, f x = g x) → l.filterMap f = l.filterMap g := by
  intro l
  induction l with
  | nil => intro _; rfl
  | cons a t ih =>
    intro h
    rw [List.filterMap_cons, List.filterMap_cons, h a (List.mem_cons_self a t),
      ih (fun x hx => h x (List.mem_cons_of_mem a hx))]

theorem firstKw_cons (k : String) (sel : List String) (n : String) :
    firstKw (k :: sel) n =
      if k ∈ validTokens n then some k else firstKw sel n := by
  by_cases h : k ∈ validTokens n
  · rw [if_pos h]
    exact List.find?_cons_of_pos _ (by simpa using h)
  · rw [if_neg h]
    exact List.find?_cons_of_neg _ (by simpa using h)

theorem firstKw_spec {sel : List String} {n k : String}
    (h : firstKw sel n = some k) : k ∈ validTokens n ∧ k ∈ sel :=
  ⟨by simpa using List.find?_some h, List.mem_of_find?_eq_some h⟩

theorem buildClusters_eq_spec :
    ∀ (ks : List (String × Nat)) (names processed : List String),
    (ks.map Prod.fst).Nodup →
    buildClusters ks names processed =
      clustersSpec (ks.map Prod.fst) names processed := by
  intro ks
  induction ks with
  | nil => intro names processed _; rfl
  | cons p rest ih =>
    intro names processed hnd
    obtain ⟨kw, cnt⟩ := p
    rw [List.map_cons] at hnd ⊢
    obtain ⟨hkw, hrest⟩ := List.nodup_cons.mp hnd
    have hA : clusterFilesSpec (kw :: rest.map Prod.fst) names processed kw
        = names.filter (fun n => decide (kw ∈ validTokens n ∧ n ∉ processed)) := by
      apply List.filter_congr
      intro n _
      rw [decide_eq_decide]
      constructor
      · rintro ⟨hp, hf⟩
        rw [firstKw_cons] at hf
        by_cases ht : kw ∈ validTokens n
        · exact ⟨ht, hp⟩
        · rw [if_neg ht] at hf
          exact absurd (firstKw_spec hf).1 ht
      · rintro ⟨ht, hp⟩
        exact ⟨hp, by rw [firstKw_cons, if_pos ht]⟩
    by_cases hempty :
        (names.filter (fun n => decide (kw ∈ validTokens n ∧ n ∉ processed))).isEmpty
    · have hnil := List.isEmpty_iff.mp hempty
      have hnomatch : ∀ n ∈ names, kw ∈ validTokens n → n ∈ processed := by
        intro n hn ht
        by_contra hp
        have := List.filter_eq_nil_iff.mp hnil n hn
        simp only [decide_eq_true_eq] at this
        exact this ⟨ht, hp⟩
      have hL : buildClusters ((kw, cnt) :: rest) names processed
          = buildClusters rest names processed := by
        rw [buildClusters, if_pos hempty]
      rw [hL, ih names processed hrest]
      unfold clustersSpec
      rw [List.filterMap_cons, if_pos (hA ▸ hempty)]
      apply filterMap_congr_mem
      intro k' _
      have hfiles : clusterFilesSpec (rest.map Prod.fst) names processed k'
          = clusterFilesSpec (kw :: rest.map Prod.fst) names processed k' := by
        apply List.filter_congr
        intro n hn
        rw [decide_eq_decide]
        by_cases hp : n ∈ processed
        · constructor <;> (rintro ⟨h1, _⟩; exact absurd hp h1)
        · have ht : kw ∉ validTokens n := fun ht => hp (hnomatch n hn ht)
          rw [firstKw_cons, if_neg ht]
      rw [hfiles]
    · have hL : buildClusters ((kw, cnt) :: rest) names processed
          = (kw,
             (names.filter (fun n => decide (kw ∈ validTokens n ∧ n ∉ processed))).length,
             names.filter (fun n => decide (kw ∈ validTokens n ∧ n ∉ processed)))
            :: buildClusters rest names
                (processed ++ names.filter (fun n =>
                  decide (kw ∈ validTokens n ∧ n ∉ processed))) := by
        rw [buildClusters, if_neg hempty]
      rw [hL, ih names _ hrest]
      unfold clustersSpec
      rw [List.filterMap_cons, if_neg (hA ▸ hempty), hA]
      congr 1
      apply filterMap_congr_mem
      intro k' hk'
      have hne : k' ≠ kw := fun h => hkw (h ▸ hk')
      have hfiles : clusterFilesSpec (rest.map Prod.fst) names
            (processed ++ names.filter (fun n =>
              decide (kw ∈ validTokens n ∧ n ∉ processed))) k'
          = clusterFilesSpec (kw :: rest.map Prod.fst) names processed k' := by
        apply List.filter_congr
        intro n hn
        rw [decide_eq_decide]
        have hrel : n ∈ names.filter (fun n =>
            decide (kw ∈ validTokens n ∧ n ∉ processed))
            ↔ (kw ∈ validTokens n ∧ n ∉ processed) := by
          rw [List.mem_filter, decide_eq_true_eq]
          exact ⟨fun h => h.2, fun h => ⟨hn, h⟩⟩
        by_cases hp : n ∈ processed
        · constructor
          · rintro ⟨h1, _⟩
            exact absurd (List.mem_append_left _ hp) h1
          · rintro ⟨h1, _⟩
            exact absurd hp h1
        · by_cases ht : kw ∈ validTokens n
          · constructor
            · rintro ⟨h1, _⟩
              exact absurd (List.mem_append_right _ (hrel.mpr ⟨ht, hp⟩)) h1
            · rintro ⟨_, hf⟩
              rw [firstKw_cons, if_pos ht] at hf
              exact absurd (Option.some.inj hf) hne.symm
          · have hnr : n ∉ names.filter (fun n =>
                decide (kw ∈ validTokens n ∧ n ∉ processed)) :=
              fun h => ht (hrel.mp h).1
            constructor
            · rintro ⟨h1, hf⟩
              refine ⟨hp, ?_⟩
              rw [firstKw_cons, if_neg ht]
              exact hf
            · rintro ⟨_, hf⟩
              rw [firstKw_cons, if_neg ht] at hf
              refine ⟨?_, hf⟩
              intro hmem
              rcases List.mem_append.mp hmem with h | h
              · exact hp h
              · exact hnr h
      rw [hfiles]

theorem dedupFirst_disjoint :
    ∀ (l seen : List String) (y : String), y ∈ dedupFirst l seen → y ∉ seen := by
  intro l
  induction l with
  | nil => intro seen y hy; simp [dedupFirst] at hy
  | cons x xs ih =>
    intro seen y hy
    by_cases hx : x ∈ seen
    · rw [dedupFirst, if_pos hx] at hy
      exact ih seen y hy
    · rw [dedupFirst, if_neg hx] at hy
      rcases List.mem_cons.mp hy with rfl | hy
      · exact hx
      · exact fun hmem => ih (x :: seen) y hy (List.mem_cons_of_mem x hmem)

theorem dedupFirst_nodup : ∀ (l seen : List String), (dedupFirst l seen).Nodup := by
  intro l
  induction l with
  | nil => intro seen; simp [dedupFirst]
  | cons x xs ih =>
    intro seen
    by_cases hx : x ∈ seen
    · rw [dedupFirst, if_pos hx]
      exact ih seen
    · rw [dedupFirst, if_neg hx]
      exact List.nodup_cons.mpr
        ⟨fun hmem => dedupFirst_disjoint xs (x :: seen) x hmem
          (List.mem_cons_self x seen), ih (x :: seen)⟩

theorem insertDesc_perm (x : String × Nat) :
    ∀ l, List.Perm (insertDesc x l) (x :: l) := by
  intro l
  induction l with
  | nil => exact List.Perm.refl _
  | cons y ys ih =>
    rw [insertDesc]
    by_cases h : y.2 ≤ x.2
    · rw [if_pos h]
    · rw [if_neg h]
      exact (ih.cons y).trans (List.Perm.swap x y ys)

theorem sortDesc_perm : ∀ l, List.Perm (sortDesc l) l := by
  intro l
  induction l with
  | nil => exact List.Perm.refl _
  | cons x xs ih =>
    exact (insertDesc_perm x (sortDesc xs)).trans (ih.cons x)

theorem counterItems_fst (ws : List String) :
    (counterItems ws).map Prod.fst = dedupFirst ws [] := by
  rw [counterItems, List.map_map]
  exact List.map_id _

theorem selected_nodup (logs : List LogEntry) : (selectedKeywords logs).Nodup := by
  have h1 : ((sortDesc (counterItems (wordsOf logs))).map Prod.fst).Nodup := by
    have hperm := (sortDesc_perm (counterItems (wordsOf logs))).map Prod.fst
    rw [hperm.nodup_iff, counterItems_fst]
    exact dedupFirst_nodup _ _
  rw [selectedKeywords, selectedPairs, mostCommon, List.map_take]
  exact h1.sublist (List.take_sublist 5 _)

theorem pairwise_insertDesc (x : String × Nat) :
    ∀ l, l.Pairwise (fun a b : String × Nat => b.2 ≤ a.2) →
      (insertDesc x l).Pairwise (fun a b => b.2 ≤ a.2) := by
  intro l
  induction l with
  | nil => intro _; simp [insertDesc]
  | cons y ys ih =>
    intro h
    obtain ⟨hy, hys⟩ := List.pairwise_cons.mp h
    rw [insertDesc]
    by_cases hle : y.2 ≤ x.2
    · rw [if_pos hle]
      refine List.pairwise_cons.mpr ⟨?_, h⟩
      intro b hb
      rcases List.mem_cons.mp hb with rfl | hb
      · exact hle
      · exact le_trans (hy b hb) hle
    · rw [if_neg hle]
      refine List.pairwise_cons.mpr ⟨?_, ih hys⟩
      intro b hb
      have hb2 := (insertDesc_perm x ys).mem_iff.mp hb
      rcases List.mem_cons.mp hb2 with rfl | hb2
      · exact le_of_lt (lt_of_not_le hle)
      · exact hy b hb2

theorem pairwise_sortDesc :
    ∀ l, (sortDesc l).Pairwise (fun a b : String × Nat => b.2 ≤ a.2) := by
  intro l
  induction l with
  | nil => simp [sortDesc]
  | cons x xs ih => exact pairwise_insertDesc x _ ih

theorem pairwise_selectedPairs (logs : List LogEntry) :
    (selectedPairs logs).Pairwise (fun a b => b.2 ≤ a.2) :=
  (pairwise_sortDesc _).sublist (List.take_sublist 5 _)

theorem extract_eq_clustersSpec (logs : List LogEntry) :
    extract_topics_and_cluster logs
      = clustersSpec (selectedKeywords logs) (dictNames logs) [] := by
  rw [extract_topics_and_cluster]
  by_cases h : (wordsOf logs).isEmpty
  · rw [if_pos h]
    have hw : wordsOf logs = [] := List.isEmpty_iff.mp h
    have hsel : selectedKeywords logs = [] := by
      rw [selectedKeywords, selectedPairs, mostCommon, hw]
      rfl
    rw [hsel]
    rfl
  · rw [if_neg h]
    exact buildClusters_eq_spec _ _ _ (selected_nodup logs)

theorem clustersSpec_mem {sel names processed : List String}
    {c : String × Nat × List String} (h : c ∈ clustersSpec sel names processed) :
    c.1 ∈ sel ∧ c.2.2 = clusterFilesSpec sel names processed c.1 ∧ c.2.2 ≠ [] := by
  rw [clustersSpec, List.mem_filterMap] at h
  obtain ⟨k, hk, hF⟩ := h
  by_cases he : (clusterFilesSpec sel names processed k).isEmpty
  · rw [if_pos he] at hF
    cases hF
  · rw [if_neg he] at hF
    obtain rfl := Option.some.inj hF
    exact ⟨hk, rfl, fun hnil => he (List.isEmpty_iff.mpr hnil)⟩

theorem map_fst_filterMap_sublist {α β γ : Type}
    (F : α → Option (α × β × γ)) (hF : ∀ a c, F a = some c → c.1 = a) :
    ∀ l : List α, List.Sublist ((l.filterMap F).map (fun c => c.1)) l := by
  intro l
  induction l with
  | nil => simp
  | cons a t ih =>
    rw [List.filterMap_cons]
    cases hFa : F a with
    | none => exact ih.cons a
    | some c =>
      rw [List.map_cons, hF a c hFa]
      exact ih.cons₂ a

theorem clustersSpec_fst_sublist (sel names processed : List String) :
    List.Sublist ((clustersSpec sel names processed).map (fun c => c.1)) sel := by
  apply map_fst_filterMap_sublist
  intro k c h
  by_cases he : (clusterFilesSpec sel names processed k).isEmpty
  · rw [if_pos he] at h
    cases h
  · rw [if_neg he] at h
    obtain rfl := Option.some.inj h
    rfl

theorem clusters_fst_nodup (logs : List LogEntry) :
    ((extract_topics_and_cluster logs).map (fun c => c.1)).Nodup := by
  rw [extract_eq_clustersSpec]
  exact (selected_nodup logs).sublist (clustersSpec_fst_sublist _ _ _)

theorem clusters_claimed (logs : List LogEntry) :
    ∀ c ∈ extract_topics_and_cluster logs, ∀ f ∈ c.2.2,
      firstKw (selectedKeywords logs) f = some c.1 := by
  intro c hc f hf
  rw [extract_eq_clustersSpec] at hc
  obtain ⟨_, hfiles, _⟩ := clustersSpec_mem hc
  rw [hfiles, clusterFilesSpec, List.mem_filter, decide_eq_true_eq] at hf
  exact hf.2.2

/-- C1: for every aggregation batch, the selected keywords are ranked by
descending frequency, the emitted clusters are pairwise disjoint (no
filename appears in the files of two distinct clusters), each clustered
file is claimed by the first — highest-ranked — selected keyword contained
in its token set, and a selected keyword none of whose files it would
claim (all were taken by higher-ranked keywords) is omitted from the
cluster list entirely. -/
theorem C1_cluster_disjointness (logs : List LogEntry) :
    (selectedPairs logs).Pairwise (fun a b => b.2 ≤ a.2)
    ∧ (∀ (i j : Nat) (hi : i < (extract_topics_and_cluster logs).length)
        (hj : j < (extract_topics_and_cluster logs).length), i ≠ j →
        ∀ f, f ∈ ((extract_topics_and_cluster logs).get ⟨i, hi⟩).2.2 →
          f ∉ ((extract_topics_and_cluster logs).get ⟨j, hj⟩).2.2)
    ∧ (∀ c ∈ extract_topics_and_cluster logs, ∀ f ∈ c.2.2,
        firstKw (selectedKeywords logs) f = some c.1)
    ∧ (∀ k ∈ selectedKeywords logs,
        (∀ n ∈ dictNames logs, firstKw (selectedKeywords logs) n ≠ some k) →
        k ∉ (extract_topics_and_cluster logs).map (fun c => c.1)) := by
  refine ⟨pairwise_selectedPairs logs, ?_, clusters_claimed logs, ?_⟩
  · intro i j hi hj hij f hfi hfj
    have hkne : ((extract_topics_and_cluster logs).get ⟨i, hi⟩).1
        ≠ ((extract_topics_and_cluster logs).get ⟨j, hj⟩).1 := by
      intro hEq
      apply hij
      have hnd := clusters_fst_nodup logs
      have hmi : i < ((extract_topics_and_cluster logs).map (fun c => c.1)).length := by
        simpa using hi
      have hmj : j < ((extract_topics_and_cluster logs).map (fun c => c.1)).length := by
        simpa using hj
      have hgi : ((extract_topics_and_cluster logs).map (fun c => c.1)).get ⟨i, hmi⟩
          = ((extract_topics_and_cluster logs).map (fun c => c.1)).get ⟨j, hmj⟩ := by
        simpa using hEq
      have := (hnd.get_inj_iff).mp hgi
      exact congrArg Fin.val this
    have h1 := clusters_claimed logs _
      (List.get_mem (extract_topics_and_cluster logs) _ _) f hfi
    have h2 := clusters_claimed logs _
      (List.get_mem (extract_topics_and_cluster logs) _ _) f hfj
    exact hkne (Option.some.inj (h1.symm.trans h2))
  · intro k _ hnone hkcl
    rw [List.mem_map] at hkcl
    obtain ⟨c, hc, hc1⟩ := hkcl
    rw [extract_eq_clustersSpec] at hc
    obtain ⟨_, hfiles, hne⟩ := clustersSpec_mem hc
    obtain ⟨n, hn⟩ := List.exists_mem_of_ne_nil _ hne
    rw [hfiles, clusterFilesSpec, List.mem_filter, decide_eq_true_eq] at hn
    exact hnone n hn.1 (hc1 ▸ hn.2.2)

/-- Witness for C1: in the concrete example batch, the first cluster holds
`Project-Alpha-Planning.md` and the second — a distinct cluster — does not. -/
theorem C1_cluster_disjointness_witness :
    "Project-Alpha-Planning.md"
      ∉ ((extract_topics_and_cluster logsC5).get ⟨1, by decide⟩).2.2 :=
  (C1_cluster_disjointness logsC5).2.1 0 1 (by decide) (by decide)
    (by decide) "Project-Alpha-Planning.md" (by decide)

theorem dedupFirst_subset : ∀ (l seen : List String) (y : String),
    y ∈ dedupFirst l seen → y ∈ l := by
  intro l
  induction l with
  | nil => intro seen y hy; simp [dedupFirst] at hy
  | cons x xs ih =>
    intro seen y hy
    by_cases hx : x ∈ seen
    · rw [dedupFirst, if_pos hx] at hy
      exact List.mem_cons_of_mem x (ih seen y hy)
    · rw [dedupFirst, if_neg hx] at hy
      rcases List.mem_cons.mp hy with rfl | hy
      · exact List.mem_cons_self y xs
      · exact List.mem_cons_of_mem x (ih (x :: seen) y hy)

/-- C5: on the example batch, the clusterer ranks the token spelled
"project" (count 2) and the token spelled "alpha" (count 2) among the top
keywords, the first of the two under the tie-break rule claims both
Project-Alpha files in a single cluster, `Beta-Review.md` forms its own
single-file cluster, and `Untitled.md` belongs to no cluster; the stop-word
set filters out "review", "untitled", "new" and "update". -/
theorem C5_clustering_example :
    extract_topics_and_cluster logsC5
      = [("Project", 2, ["Project-Alpha-Planning.md", "Project-Alpha-Notes.md"]),
         ("Beta", 1, ["Beta-Review.md"])]
    ∧ ("Project", 2) ∈ selectedPairs logsC5
    ∧ ("Alpha", 2) ∈ selectedPairs logsC5
    ∧ String.mk (lowerChars "Project".data) = "project"
    ∧ String.mk (lowerChars "Alpha".data) = "alpha"
    ∧ (selectedKeywords logsC5).indexOf "Project"
        < (selectedKeywords logsC5).indexOf "Alpha"
    ∧ "review" ∈ ignoreWords ∧ "untitled" ∈ ignoreWords
    ∧ "new" ∈ ignoreWords ∧ "update" ∈ ignoreWords
    ∧ ((extract_topics_and_cluster logsC5).all
        (fun c => !(c.2.2.contains "Untitled.md"))) = true := by
  decide

/-- Counterexample to C9 as stated: in a batch holding the tokens `Alpha`
and `alpha`, the global frequency count keeps two distinct entries of
count 1 — it does not merge case variants into one token of count 2 — and
the clusterer accordingly emits two distinct case-variant clusters. -/
theorem C9_counterexample :
    counterItems (wordsOf logsC9)
      = [("Alpha", 1), ("Beta", 1), ("alpha", 1), ("Gamma", 1)]
    ∧ ((wordsOf logsC9).filter
        (fun t => String.mk (lowerChars t.data) = "alpha")).length = 2
    ∧ extract_topics_and_cluster logsC9
      = [("Alpha", 1, ["Alpha-Beta.md"]), ("alpha", 1, ["alpha-Gamma.md"])]
    ∧ (1 : Nat) ≠ 2 := by
  decide

/-- C9 amended: the stop-word filter compares case-folded (a kept token's
lower-cased form is never a stop word, and short tokens are dropped), the
global frequency count is case-sensitive — the count attached to a token
is the number of its exact-spelling occurrences in the batch — and the
keyword displayed for a cluster is one of the batch tokens in its original
casing. -/
theorem C9_case_folding (logs : List LogEntry) :
    (∀ (name t : String), t ∈ validTokens name →
      1 < t.length ∧ String.mk (lowerChars t.data) ∉ ignoreWords)
    ∧ (∀ (ws : List String) (t : String) (c : Nat), (t, c) ∈ counterItems ws →
        c = (ws.filter (fun u => u = t)).length)
    ∧ (∀ c ∈ extract_topics_and_cluster logs, c.1 ∈ wordsOf logs) := by
  refine ⟨?_, ?_, ?_⟩
  · intro name t ht
    rw [validTokens, List.mem_filterMap] at ht
    obtain ⟨t0, _, hcond⟩ := ht
    by_cases h : 1 < (trimChars t0).length ∧
        String.mk (lowerChars (trimChars t0)) ∉ ignoreWords
    · rw [if_pos h] at hcond
      obtain rfl := Option.some.inj hcond
      exact ⟨h.1, h.2⟩
    · rw [if_neg h] at hcond
      cases hcond
  · intro ws t c h
    rw [counterItems, List.mem_map] at h
    obtain ⟨t0, _, hEq⟩ := h
    cases hEq
    rfl
  · intro c hc
    rw [extract_eq_clustersSpec] at hc
    obtain ⟨hsel, _, _⟩ := clustersSpec_mem hc
    rw [selectedKeywords, selectedPairs, mostCommon, List.map_take] at hsel
    have h2 := List.mem_of_mem_take hsel
    have h3 := ((sortDesc_perm (counterItems (wordsOf logs))).map Prod.fst).mem_iff.mp h2
    rw [counterItems_fst] at h3
    exact dedupFirst_subset _ _ _ h3

/-- Witness for C9 amended: the kept token `Notes` of `Review-Notes.md`
has length above one and its lower-cased form escapes the stop-word set. -/
theorem C9_case_folding_witness :
    1 < ("Notes" : String).length
      ∧ String.mk (lowerChars "Notes".data) ∉ ignoreWords :=
  (C9_case_folding []).1 "Review-Notes.md" "Notes" (by decide)

/-- Counterexample to C2 as stated: a scan started at time 1000000 with a
two-day lookback override persists 1000000 — the scan start time — and not
the override boundary 827200. -/
theorem C2_counterexample :
    (scan_and_summarize gbkNone fmtNone "vault" [] 0 1000000 (some 2)).savedState
      = 1000000
    ∧ effectiveBaseline 0 1000000 (some 2) = 827200
    ∧ (scan_and_summarize gbkNone fmtNone "vault" [] 0 1000000 (some 2)).savedState
      ≠ 1000000 - 2 * 86400 := by
  decide

/-- C2 amended: the cursor persisted at the end of every scan equals the
scan-start time `current_time`, also for lookback-override runs; the
override boundary serves only as the comparison baseline and is never
persisted. -/
theorem C2_cursor_scan_start (gbk : List Nat → Option (List Char))
    (fmt : Int → String) (vaultPath : String) (vault : List VFile)
    (state currentTime : Int) (daysBack : Option Int) :
    (scan_and_summarize gbk fmt vaultPath vault state currentTime
      daysBack).savedState = currentTime :=
  rfl

/-- Counterexample to C3 as stated: when the state file exists but its
contents do not read or parse, `load_state` propagates the exception
instead of returning the zero cursor. -/
theorem C3_counterexample :
    load_state (some (Except.error ())) = Except.error ()
    ∧ load_state (some (Except.error ())) ≠ Except.ok 0 :=
  ⟨rfl, fun h => Except.noConfusion h⟩

/-- C3 amended: `load_state` returns the zero cursor only when no state
file exists; an existing file is read and parsed without any exception
handling, so a parsed value is returned as is and a read or parse
exception propagates to the caller. -/
theorem C3_soft_default_only_when_missing :
    load_state none = Except.ok 0
    ∧ (∀ v : Int, load_state (some (Except.ok v)) = Except.ok v)
    ∧ (∀ e : Unit, load_state (some (Except.error e)) = Except.error e) :=
  ⟨rfl, fun _ => rfl, fun _ => rfl⟩

/-- Counterexample to C8 as stated: with a valid prior cursor for time 5
stored, a save of time 7 that fails right after the truncating open leaves
an empty state file — neither the prior cursor nor the new one, so the
overwrite is not atomic and the prior value is not preserved. -/
theorem C8_counterexample :
    save_state_after (some (save_state_json 5)) 7 true 0 = some ""
    ∧ some "" ≠ some (save_state_json 5)
    ∧ some "" ≠ some (save_state_json 7) := by
  decide

/-- C8 amended: `save_state` overwrites the state file in place; a failure
before the open leaves the prior content, a failure after the truncating
open leaves an empty file (destroying a prior valid cursor), and only a
completed write stores the new cursor JSON. -/
theorem C8_truncate_then_write (prior : Option String) (t : Int) :
    save_state_after prior t false 0 = prior
    ∧ save_state_after prior t true 0 = some ""
    ∧ save_state_after prior t true (save_state_json t).length
        = some (save_state_json t) := by
  refine ⟨rfl, rfl, ?_⟩
  show some (String.mk ((save_state_json t).data.take
    (save_state_json t).data.length)) = some (save_state_json t)
  rw [List.take_length]

theorem insertMt_perm (x : ModFile) : ∀ l, List.Perm (insertMt x l) (x :: l) := by
  intro l
  induction l with
  | nil => exact List.Perm.refl _
  | cons y ys ih =>
    rw [insertMt]
    by_cases h : y.mtime ≤ x.mtime
    · rw [if_pos h]
    · rw [if_neg h]
      exact (ih.cons y).trans (List.Perm.swap x y ys)

theorem sortMt_perm : ∀ l, List.Perm (sortMt l) l := by
  intro l
  induction l with
  | nil => exact List.Perm.refl _
  | cons x xs ih =>
    exact (insertMt_perm x (sortMt xs)).trans (ih.cons x)

theorem processFile_rel_path {gbk : List Nat → Option (List Char)}
    {fmt : Int → String} {vaultPath : String} {lastScan currentTime : Int}
    {f : VFile} {e : LogEntry}
    (h : processFile gbk fmt vaultPath lastScan currentTime f = some e) :
    e.rel_path = mkRelPath f := by
  rw [processFile] at h
  split at h
  · cases h
  · split at h
    · split at h
      · cases h
      · obtain rfl := Option.some.inj h
        rfl
    · cases h

/-- Counterexample to C4 as stated: `scan_vault` prunes only `.git` and
`.obsidian`, so a recent note inside the hidden directory `.trash` is
reported as changed. -/
theorem C4_counterexample :
    scan_vault "vault" vaultC4 1000 7
      = [⟨"vault/.trash/note.md", ".trash/note.md", 100, 100⟩]
    ∧ startsWithDot ".trash" = true
    ∧ scan_vault "vault" vaultC4 1000 7 ≠ [] := by
  decide

/-- C4 amended: the daily scan (`daily_summary.py`) prunes every directory
whose name starts with a dot, so each of its change events originates from
a file with no hidden ancestor; `scan_vault` (`scanner.py`) prunes only
the directories named `.git` and `.obsidian`, so its reported files are
exactly guaranteed free of those two ancestors — files under other hidden
directories can still be reported there. -/
theorem C4_hidden_dir_pruning :
    (∀ (gbk : List Nat → Option (List Char)) (fmt : Int → String)
        (vaultPath : String) (vault : List VFile) (state currentTime : Int)
        (daysBack : Option Int) (e : LogEntry),
      e ∈ (scan_and_summarize gbk fmt vaultPath vault state currentTime
          daysBack).newLogs →
      ∃ f ∈ vault, f.dirs.any startsWithDot = false ∧ e.rel_path = mkRelPath f)
    ∧ (∀ (vaultPath : String) (vault : List VFile) (now days : Int)
        (m : ModFile), m ∈ scan_vault vaultPath vault now days →
      ∃ f ∈ vault, prunedGitObsidian f = false ∧ m.rel_path = mkRelPath f) := by
  constructor
  · intro gbk fmt vp vault state ct db e he
    have he2 : e ∈ (vault.filter (fun f => !(f.dirs.any startsWithDot))).filterMap
        (processFile gbk fmt vp (effectiveBaseline state ct db) ct) := he
    rw [List.mem_filterMap] at he2
    obtain ⟨f, hf, hpf⟩ := he2
    rw [List.mem_filter] at hf
    exact ⟨f, hf.1, by simpa using hf.2, processFile_rel_path hpf⟩
  · intro vp vault now days m hm
    rw [scan_vault] at hm
    have hm2 := (sortMt_perm _).mem_iff.mp hm
    rw [List.mem_filterMap] at hm2
    obtain ⟨f, hf, hsome⟩ := hm2
    rw [List.mem_filter] at hf
    refine ⟨f, hf.1, by simpa using hf.2, ?_⟩
    split at hsome
    · obtain rfl := Option.some.inj hsome
      rfl
    · cases hsome

/-- Witness for C4 amended: the event produced by scanning a vault holding
one visible note originates from that note file. -/
theorem C4_hidden_dir_pruning_witness :
    ∃ f ∈ [fPlain], f.dirs.any startsWithDot = false
      ∧ (LogEntry.mk 5 (fmtNone 5) (mkFilePath "vault" fPlain) (mkRelPath fPlain)
          "update" (mock_ai_summarize
            (translateNewlines (decodeChain gbkNone fPlain.bytes))
            fPlain.name)).rel_path = mkRelPath f :=
  C4_hidden_dir_pruning.1 gbkNone fmtNone "vault" [fPlain] 0 5 none
    (LogEntry.mk 5 (fmtNone 5) (mkFilePath "vault" fPlain) (mkRelPath fPlain)
      "update" (mock_ai_summarize
        (translateNewlines (decodeChain gbkNone fPlain.bytes)) fPlain.name))
    (by
      have h : (scan_and_summarize gbkNone fmtNone "vault" [fPlain] 0 5
            none).newLogs
          = [LogEntry.mk 5 (fmtNone 5) (mkFilePath "vault" fPlain)
              (mkRelPath fPlain) "update" (mock_ai_summarize
                (translateNewlines (decodeChain gbkNone fPlain.bytes))
                fPlain.name)] := rfl
      rw [h]
      exact List.mem_singleton.mpr rfl)

/-- Counterexample to C10's final clause: a file holding exactly a UTF-16
little-endian byte-order mark is non-empty, yet its decoded content is the
empty string (UTF-8 rejects the bytes, UTF-16 consumes the mark and yields
nothing), so the eligible, recently-modified file is skipped and produces
no log record although its content is not empty. -/
theorem C10_counterexample :
    fBom.bytes ≠ []
    ∧ decodeChain gbkNone fBom.bytes = []
    ∧ fBom.mtime > 0
    ∧ endsWithMd fBom.name.data = true
    ∧ processFile gbkNone fmtNone "vault" 0 5 fBom = none := by
  refine ⟨by decide, rfl, by decide, rfl, rfl⟩

/-- C10 amended: an eligible file modified after the baseline produces a
log record exactly when its decoded content is non-empty — an empty
decoded content is skipped with no record.  Since latin-1 is the last
encoding tried and decodes every byte sequence, the chain always yields a
string; an empty file always takes the skip branch, but so can a
non-empty file whose bytes decode to the empty string. -/
theorem C10_empty_decode_skip :
    (∀ (gbk : List Nat → Option (List Char)) (fmt : Int → String)
        (vaultPath : String) (lastScan currentTime : Int) (f : VFile),
      endsWithMd f.name.data = true → f.mtime > lastScan →
      ((processFile gbk fmt vaultPath lastScan currentTime f).isSome
        ↔ translateNewlines (decodeChain gbk f.bytes) ≠ []))
    ∧ (∀ (gbk : List Nat → Option (List Char)) (fmt : Int → String)
        (vaultPath : String) (lastScan currentTime : Int) (f : VFile),
      f.bytes = [] →
      processFile gbk fmt vaultPath lastScan currentTime f = none) := by
  constructor
  · intro gbk fmt vp ls ct f hmd hmt
    rw [processFile, hmd]
    simp only [Bool.not_true, Bool.false_eq_true, if_false, if_pos hmt]
    by_cases hc : (translateNewlines (decodeChain gbk f.bytes)).isEmpty
    · rw [if_pos hc]
      simp [List.isEmpty_iff.mp hc]
    · rw [if_neg hc]
      simp only [Option.isSome_some, true_iff]
      intro hnil
      exact hc (List.isEmpty_iff.mpr hnil)
  · intro gbk fmt vp ls ct f hb
    rw [processFile]
    by_cases h1 : !(endsWithMd f.name.data)
    · rw [if_pos h1]
    · rw [if_neg h1]
      by_cases h2 : f.mtime > ls
      · rw [if_pos h2, hb]
        rfl
      · rw [if_neg h2]

/-- Witness for C10 amended: for a visible two-byte note modified after
the baseline, a record is produced exactly because the decoded content is
non-empty. -/
theorem C10_empty_decode_skip_witness :
    (processFile gbkNone fmtNone "vault" 0 5 fPlain).isSome
      ↔ translateNewlines (decodeChain gbkNone fPlain.bytes) ≠ [] :=
  C10_empty_decode_skip.1 gbkNone fmtNone "vault" 0 5 fPlain rfl (by decide)

/-- Counterexample to C6's failure-surfacing clause: aggregating an absent
log (and likewise a log of blank lines only) yields the no-data outcomes
with no report written, yet the process exit status is zero and
`run_pipeline` treats the invocation as successful — the condition is not
surfaced as a non-zero-exit terminal failure. -/
theorem C6_counterexample :
    generate_report Option.none "." false Option.none netEmpty envEx
      = ReportOutcome.noLogFile
    ∧ generate_report (Option.some [Option.none]) "." false Option.none
        netEmpty envEx = ReportOutcome.emptyLog
    ∧ weeklyReportExitCode ReportOutcome.noLogFile = 0
    ∧ weeklyReportExitCode ReportOutcome.emptyLog = 0
    ∧ pipelineRun 0 (weeklyReportExitCode (generate_report Option.none "."
        false Option.none netEmpty envEx)) = PipelineResult.completed :=
  ⟨rfl, rfl, rfl, rfl, rfl⟩

/-- C6 amended: aggregating an absent or empty log reports the no-data
outcome and writes no report file, but the function returns normally: the
report process exits zero on every outcome, so the pipeline driver sees
success rather than a terminal failure. -/
theorem C6_no_data_not_failure :
    (∀ (out : String) (pl : Bool) (key : Option String) (net : LinearNet)
        (env : TimeEnv),
      generate_report Option.none out pl key net env = ReportOutcome.noLogFile)
    ∧ (∀ (out : String) (pl : Bool) (key : Option String) (net : LinearNet)
        (env : TimeEnv) (rawLines : List (Option LogEntry)),
      rawLines.filterMap (fun x => x) = [] →
      generate_report (Option.some rawLines) out pl key net env
        = ReportOutcome.emptyLog)
    ∧ (∀ o : ReportOutcome, weeklyReportExitCode o = 0)
    ∧ pipelineRun 0 0 = PipelineResult.completed := by
  refine ⟨fun _ _ _ _ _ => rfl, ?_, fun _ => rfl, rfl⟩
  intro out pl key net env rawLines h
  rw [generate_report, if_pos (List.isEmpty_iff.mpr h)]

/-- Witness for C6 amended: a log file holding two blank lines aggregates
to the empty-log outcome. -/
theorem C6_no_data_not_failure_witness :
    generate_report (Option.some [Option.none, Option.none]) "out" true
      (Option.some "key") netOK envEx = ReportOutcome.emptyLog :=
  C6_no_data_not_failure.2.1 "out" true (Option.some "key") netOK envEx
    [Option.none, Option.none] rfl

/-- Counterexample to C7's "returns a failure result" clause: the value
`publish_to_linear` hands back with no credential configured equals the
value it hands back on a fully successful publish — Python `None` in both
cases — so no failure result reaches the caller; only the printed effects
of the two runs differ. -/
theorem C7_counterexample :
    (publish_to_linear Option.none netEmpty).2
      = (publish_to_linear (Option.some "key") netOK).2
    ∧ (publish_to_linear Option.none netEmpty).1
      ≠ (publish_to_linear (Option.some "key") netOK).1
    ∧ (publish_to_linear (Option.some "key") netOK).1
      = PublishTrace.published "https://linear.app/issue/1" :=
  ⟨rfl, by decide, rfl⟩

/-- C7 amended: when publishing is requested with no credential configured,
the report is still rendered and written (the write precedes the publish
attempt) and the publish step is skipped with only a printed error; no
distinct failure value is returned — `publish_to_linear` returns `None` on
every path. -/
theorem C7_publish_skip_report_written :
    (∀ (out : String) (net : LinearNet) (env : TimeEnv)
        (rawLines : List (Option LogEntry)),
      rawLines.filterMap (fun x => x) ≠ [] →
      ∃ file content,
        generate_report (Option.some rawLines) out true Option.none net env
          = ReportOutcome.generated file content
              (Option.some PublishTrace.skippedNoKey))
    ∧ (∀ (key : Option String) (net : LinearNet),
        (publish_to_linear key net).2 = PyNone.none) := by
  constructor
  · intro out net env rawLines h
    refine ⟨out ++ "/Weekly_Report_" ++ env.weekNum ++ ".md",
      reportContent env (rawLines.filterMap (fun x => x))
        (extract_topics_and_cluster (rawLines.filterMap (fun x => x))), ?_⟩
    rw [generate_report,
      if_neg (fun hh => h (List.isEmpty_iff.mp hh))]
    rfl
  · intro key net
    rcases key with _ | k
    · rfl
    · rcases net with ⟨tr, cr⟩
      rcases tr with e | ts
      · rfl
      · rcases ts with _ | ⟨t, ts⟩
        · rfl
        · rcases cr with e | r
          · rfl
          · rcases r with _ | u <;> rfl

/-- Witness for C7 amended: with one parsed record in the log and no
credential, the run produces a written report whose publish step was
skipped. -/
theorem C7_publish_skip_report_written_witness :
    ∃ file content,
      generate_report (Option.some [Option.some (mkEntry "A-Note-File.md")])
        "out" true Option.none netEmpty envEx
      = ReportOutcome.generated file content
          (Option.some PublishTrace.skippedNoKey) :=
  C7_publish_skip_report_written.1 "out" netEmpty envEx
    [Option.some (mkEntry "A-Note-File.md")] (by decide)
